import Mathlib

set_option maxHeartbeats 1000000

/-! Shallow embedding of the Netlify background function
`netlify/functions/gemini-background.ts` from the meetinggenius3 repository:
chunk reassembly, resumable upload in fixed 8 MiB blocks, file-state polling,
content generation with a per-model retry loop and a model fallback chain,
and the orchestrating handler that writes a terminal COMPLETED/ERROR record.

Bytes are natural numbers and buffers are lists of bytes; base64 decoding of a
stored chunk is abstracted by letting the chunk store hold the decoded bytes.
Every network interaction (preflight test, upload handshake, block uploads,
finalize, readiness polls, generation calls) is driven by oracle functions
collected in a `World`, and the requests the code issues are recorded in an
`Event` trace so that theorems can speak about exactly what was sent. -/

/-- Bytes are modelled as natural numbers; a buffer is a list of bytes. -/
abbrev Bytes := List Nat

/-- Observable external actions of one handler invocation, in order. -/
inductive Event
| testCall
| initCall
| storeGet (i : Nat)
| storeDelete (i : Nat)
| blockUpload (offset : Nat) (body : Bytes)
| finalizeUpload (offset : Nat) (body : Bytes)
| pollCall (attempt : Nat)
| sleepMs (ms : Nat)
| genCall (model : String) (fetchIdx : Nat)
deriving DecidableEq

/-- A record written to the `meeting-results` store (`setJSON`), either
`\x7bstatus: COMPLETED, result\x7d` or `\x7bstatus: ERROR, error\x7d`. -/
inductive TermRecord
| completed (result : String)
| error (msg : String)
deriving DecidableEq

/-- The errors thrown inside the handler, one constructor per `throw new
Error(...)` site of the source file. -/
inductive HandlerError
| apiKeyRejected
| initFailed (code : Nat) (body : String)
| noUploadUrl
| missingChunk (i : Nat)
| chunkUploadFailed (offset : Nat) (code : Nat) (body : String)
| finalizeFailed (code : Nat) (body : String)
| fileNotFound
| fileProcessingFailed (st : String)
| pollTimeout
| pollNetwork (msg : String)
| genOverloaded (model : String)
| genFailed (code : Nat) (body : String)
| genNetwork (msg : String)
| allModelsFailed (models : List String)
| unexpectedLoopExit
deriving DecidableEq

/-- The `err.message` string of each thrown error, mirroring the template
literals of the source. -/
def HandlerError.message : HandlerError → String
| .apiKeyRejected => "API Key Rejected by Google in Server Environment. Code: 401/403. CAUSE: Likely \x27HTTP Referrer\x27 restrictions in Google Cloud Console. Server requests have no referrer. FIX: Remove restrictions or use a separate Server Key."
| .initFailed c b => "Init Handshake Failed (" ++ toString c ++ "): " ++ b
| .noUploadUrl => "No upload URL returned from Google"
| .missingChunk i => "Missing chunk " ++ toString i ++ " in storage"
| .chunkUploadFailed o c b => "Chunk Upload Failed at " ++ toString o ++ " (" ++ toString c ++ "): " ++ b
| .finalizeFailed c b => "Finalize Failed (" ++ toString c ++ "): " ++ b
| .fileNotFound => "File not found during polling"
| .fileProcessingFailed st => "File processing failed state: " ++ st
| .pollTimeout => "Timeout waiting for file to become ACTIVE"
| .pollNetwork m => m
| .genOverloaded model => "Model " ++ model ++ " Overloaded (503)"
| .genFailed c b => "Generation Failed (" ++ toString c ++ "): " ++ b
| .genNetwork m => m
| .allModelsFailed ms => "Generation failed with all attempted models: " ++ String.intercalate ", " ms
| .unexpectedLoopExit => "Unexpected loop exit"

/-- Outcome of one `fetch` of the generation endpoint: an HTTP success whose
extracted `candidates[0].content.parts[0].text` is `text` (with `none` for an
absent field), a non-2xx HTTP status with its body text, or a rejected fetch
promise (network error) carrying the exception message. -/
inductive GenResp
| ok (text : Option String)
| httpErr (code : Nat) (body : String)
| netErr (msg : String)
deriving DecidableEq

/-- Outcome of one `fetch` of the file readiness endpoint: an HTTP success
whose reported state is `state` (`d.state || d.file?.state`), a non-2xx HTTP
status, or a rejected fetch promise. -/
inductive PollResp
| ok (state : Option String)
| httpErr (code : Nat)
| netErr (msg : String)
deriving DecidableEq

/-- The parsed JSON body of the submission request. A missing `jobId` is the
empty string (the only falsy string). -/
structure Payload where
  jobId : String
  totalChunks : Nat
  mimeType : String
  mode : String
  model : String
  fileSize : Nat

/-- All inputs of one invocation: request data, environment, and oracles for
every external call.  `body` is the outcome of `req.json()`; `jsonEnv m`
models `JSON.parse(m).error?.message` for the error sanitizer (`none` when
parsing throws or the field is absent); `blockResp k` is the response to the
`k`-th block upload request (`none` = accepted, `some (status, text)` =
non-ok); `chunkStore i` holds the decoded bytes of chunk `i`. -/
structure World where
  method : String
  apiKeyEnv : Option String
  body : Except String Payload
  jsonEnv : String → Option String
  testOk : Bool
  initResp : Except (Nat × String) (Option String)
  chunkStore : Nat → Option Bytes
  blockResp : Nat → Option (Nat × String)
  finalizeResp : Option (Nat × String)
  poll : Nat → PollResp
  gen : String → Nat → GenResp

/-- Does the character list `s` start with `sub`? -/
def strStarts (sub s : List Char) : Bool :=
  match sub, s with
  | [], _ => true
  | _ :: _, [] => false
  | c :: cs, d :: ds => c == d && strStarts cs ds

/-- Does `s` contain `sub` as a contiguous run? -/
def strHas (sub s : List Char) : Bool :=
  strStarts sub s ||
    match s with
    | [] => false
    | _ :: ds => strHas sub ds

/-- JavaScript `s.includes(sub)`. -/
def jsIncludes (s sub : String) : Bool := strHas sub.data s.data

/-- Whitespace characters removed by the JavaScript `trim()`. -/
def isJsSpace (c : Char) : Bool :=
  c == ' ' || c == '\t' || c == '\n' || c == '\r' || c == '\x0b' || c == '\x0c'

/-- `trim()` on a character list: drop whitespace from both ends. -/
def trimChars (l : List Char) : List Char :=
  ((l.dropWhile isJsSpace).reverse.dropWhile isJsSpace).reverse

/-- Does the character list `s` end with `sub`? -/
def strEnds (sub s : List Char) : Bool :=
  strStarts sub.reverse s.reverse

/-- Normalization of `process.env.API_KEY`: default to the empty string, trim,
and strip one pair of surrounding double quotes (`slice(1, -1)`). -/
def normalizeKey : Option String → String
| none => ""
| some s =>
  let t := trimChars s.data
  if strStarts ['"'] t && strEnds ['"'] t then String.mk ((t.drop 1).dropLast)
  else String.mk t

/-- The catch-block message cleanup: when the message starts with a brace, try
to extract `JSON.parse(msg).error?.message` (falling back to the raw message
when parsing throws or the extracted value is falsy). -/
def sanitize (jsonEnv : String → Option String) (msg : String) : String :=
  if strStarts ['\x7b'] msg.data then
    match jsonEnv msg with
    | some m => if m = "" then msg else m
    | none => msg
  else msg

/-- The fixed upload block size, `8 * 1024 * 1024` bytes. -/
def GEMINI_CHUNK_SIZE : Nat := 8 * 1024 * 1024

/-- The inner `while (buffer.length >= GEMINI_CHUNK_SIZE)` loop: send full
blocks at the running offset while enough bytes are buffered; a non-ok
response aborts with `chunkUploadFailed` at the pre-increment offset.
Returns the remaining buffer, the offset and the next request ordinal. -/
def drainLoop (blockResp : Nat → Option (Nat × String)) (buf : Bytes) (off reqIdx : Nat) :
    List Event × Except HandlerError (Bytes × Nat × Nat) :=
  if _h : GEMINI_CHUNK_SIZE ≤ buf.length then
    match blockResp reqIdx with
    | some (c, b) =>
      ([Event.blockUpload off (buf.take GEMINI_CHUNK_SIZE)],
       Except.error (HandlerError.chunkUploadFailed off c b))
    | none =>
      match drainLoop blockResp (buf.drop GEMINI_CHUNK_SIZE) (off + GEMINI_CHUNK_SIZE) (reqIdx + 1) with
      | (evs, res) => (Event.blockUpload off (buf.take GEMINI_CHUNK_SIZE) :: evs, res)
  else ([], Except.ok (buf, off, reqIdx))
termination_by buf.length
decreasing_by
  have h8 : 0 < GEMINI_CHUNK_SIZE := by decide
  simp only [List.length_drop]
  omega

/-- The `for (let i = 0; i < totalChunks; i++)` loop: fetch chunk `i` from the
store (failing with `missingChunk` when absent), append its decoded bytes to
the buffer, delete it from the store, then drain full blocks. -/
def chunkLoop (store : Nat → Option Bytes) (blockResp : Nat → Option (Nat × String)) :
    Nat → Nat → Bytes → Nat → Nat → List Event × Except HandlerError (Bytes × Nat × Nat)
| 0, _, buf, off, reqIdx => ([], Except.ok (buf, off, reqIdx))
| remaining + 1, i, buf, off, reqIdx =>
  match store i with
  | none => ([Event.storeGet i], Except.error (HandlerError.missingChunk i))
  | some chunk =>
    match drainLoop blockResp (buf ++ chunk) off reqIdx with
    | (evs, Except.error e) => (Event.storeGet i :: Event.storeDelete i :: evs, Except.error e)
    | (evs, Except.ok (buf2, off2, idx2)) =>
      match chunkLoop store blockResp remaining (i + 1) buf2 off2 idx2 with
      | (evs2, res) => (Event.storeGet i :: Event.storeDelete i :: (evs ++ evs2), res)

/-- Sections 2 and 3 of the handler: the stitching loop over all chunks
followed by the `upload, finalize` request carrying the remaining buffer at
the final offset.  Returns the finalize body and offset on success. -/
def stitchUpload (store : Nat → Option Bytes) (blockResp : Nat → Option (Nat × String))
    (finalizeResp : Option (Nat × String)) (totalChunks : Nat) :
    List Event × Except HandlerError (Bytes × Nat) :=
  match chunkLoop store blockResp totalChunks 0 [] 0 0 with
  | (evs, Except.error e) => (evs, Except.error e)
  | (evs, Except.ok (buf, off, _)) =>
    match finalizeResp with
    | some (c, b) =>
      (evs ++ [Event.finalizeUpload off buf], Except.error (HandlerError.finalizeFailed c b))
    | none => (evs ++ [Event.finalizeUpload off buf], Except.ok (buf, off))

/-- The `while (attempts < 60)` polling loop of `waitForFileActive`, with
`fuel = 60 - attempts`: a 404 is fatal, other non-ok statuses are swallowed,
`ACTIVE` returns, `FAILED` is fatal, anything else sleeps 2000 ms and retries;
a rejected fetch promise is uncaught and propagates. -/
def pollLoop (poll : Nat → PollResp) : Nat → Nat → List Event × Except HandlerError Unit
| 0, _ => ([], Except.error HandlerError.pollTimeout)
| fuel + 1, attempts =>
  match poll attempts with
  | PollResp.netErr m => ([Event.pollCall attempts], Except.error (HandlerError.pollNetwork m))
  | PollResp.httpErr c =>
    if c = 404 then ([Event.pollCall attempts], Except.error HandlerError.fileNotFound)
    else
      match pollLoop poll fuel (attempts + 1) with
      | (evs, r) => (Event.pollCall attempts :: Event.sleepMs 2000 :: evs, r)
  | PollResp.ok st =>
    if st = some "ACTIVE" then ([Event.pollCall attempts], Except.ok ())
    else if st = some "FAILED" then
      ([Event.pollCall attempts], Except.error (HandlerError.fileProcessingFailed "FAILED"))
    else
      match pollLoop poll fuel (attempts + 1) with
      | (evs, r) => (Event.pollCall attempts :: Event.sleepMs 2000 :: evs, r)

/-- `waitForFileActive`: poll up to 60 attempts starting from attempt 0. -/
def waitForFileActive (poll : Nat → PollResp) : List Event × Except HandlerError Unit :=
  pollLoop poll 60 0

/-- `maxRetries` of the per-model retry loop in `generateContentREST`. -/
def maxRetries : Nat := 2

/-- The `while (attempts <= maxRetries)` loop of `generateContentREST`, with
`fuel = maxRetries + 1 - attempts`.  A success returns the extracted text,
defaulting to the string of an empty JSON object when the text is absent or
falsy; 503/429 statuses retry with delay `1000 * attempts` until the retry
budget is exhausted (`genOverloaded`); any other status is `genFailed`; a
rejected fetch retries with a fixed 1000 ms delay unless its message contains
an own-error marker, mirroring the catch block. -/
def genLoop (respond : Nat → GenResp) (model : String) :
    Nat → Nat → Nat → List Event × Except HandlerError String
| 0, _, _ => ([], Except.error HandlerError.unexpectedLoopExit)
| fuel + 1, fetchIdx, attempts =>
  match respond fetchIdx with
  | GenResp.ok text =>
    ([Event.genCall model fetchIdx],
     Except.ok (match text with
       | none => "\x7b\x7d"
       | some s => if s = "" then "\x7b\x7d" else s))
  | GenResp.httpErr c body =>
    if c = 503 ∨ c = 429 then
      if attempts + 1 > maxRetries then
        ([Event.genCall model fetchIdx], Except.error (HandlerError.genOverloaded model))
      else
        match genLoop respond model fuel (fetchIdx + 1) (attempts + 1) with
        | (evs, r) =>
          (Event.genCall model fetchIdx :: Event.sleepMs (1000 * (attempts + 1)) :: evs, r)
    else ([Event.genCall model fetchIdx], Except.error (HandlerError.genFailed c body))
  | GenResp.netErr m =>
    if jsIncludes m "Overloaded" || jsIncludes m "Generation Failed" then
      ([Event.genCall model fetchIdx], Except.error (HandlerError.genNetwork m))
    else if attempts + 1 > maxRetries then
      ([Event.genCall model fetchIdx], Except.error (HandlerError.genNetwork m))
    else
      match genLoop respond model fuel (fetchIdx + 1) (attempts + 1) with
      | (evs, r) => (Event.genCall model fetchIdx :: Event.sleepMs 1000 :: evs, r)

/-- `generateContentREST` for one model, driven by that model's response
oracle. -/
def generateContentREST (respond : Nat → GenResp) (model : String) :
    List Event × Except HandlerError String :=
  genLoop respond model (maxRetries + 1) 0 0

/-- The static `FALLBACK_CHAINS` table. -/
def FALLBACK_CHAINS : String → Option (List String)
| "gemini-3-pro-preview" => some ["gemini-3-pro-preview", "gemini-2.0-flash", "gemini-2.5-flash"]
| "gemini-2.5-pro" => some ["gemini-2.5-pro", "gemini-2.0-flash", "gemini-2.5-flash"]
| "gemini-2.5-flash" => some ["gemini-2.5-flash", "gemini-2.0-flash", "gemini-2.5-flash-lite"]
| "gemini-2.5-flash-lite" => some ["gemini-2.5-flash-lite", "gemini-2.0-flash-lite", "gemini-2.5-flash"]
| "gemini-2.0-flash" => some ["gemini-2.0-flash", "gemini-2.5-flash", "gemini-2.5-flash-lite"]
| "gemini-2.0-flash-lite" => some ["gemini-2.0-flash-lite", "gemini-2.5-flash-lite", "gemini-2.0-flash"]
| _ => none

/-- `FALLBACK_CHAINS[model] || [model]`. -/
def modelsToTry (model : String) : List String :=
  (FALLBACK_CHAINS model).getD [model]

/-- The `for (const currentModel of modelsToTry)` loop: stop at the first
successful generation; on failure continue with the next model exactly when
the error message contains the substring 503 or 429, otherwise rethrow.
`none` means the loop ran off the end of the chain. -/
def fallbackLoop (gen : String → Nat → GenResp) :
    List String → List Event × Option (Except HandlerError String)
| [] => ([], none)
| m :: rest =>
  match generateContentREST (gen m) m with
  | (evs, Except.ok t) => (evs, some (Except.ok t))
  | (evs, Except.error e) =>
    if jsIncludes e.message "503" || jsIncludes e.message "429" then
      match fallbackLoop gen rest with
      | (evs2, r) => (evs ++ evs2, r)
    else (evs, some (Except.error e))

/-- Section 5 of the handler: run the fallback loop over the configured chain
and convert a fully transient-failed chain into `allModelsFailed`. -/
def runGeneration (gen : String → Nat → GenResp) (model : String) :
    List Event × Except HandlerError String :=
  match fallbackLoop gen (modelsToTry model) with
  | (evs, some r) => (evs, r)
  | (evs, none) => (evs, Except.error (HandlerError.allModelsFailed (modelsToTry model)))

/-- The pipeline inside the try block after the `jobId` guard: preflight test,
upload handshake, stitch-and-upload, readiness polling, generation. -/
def pipeline (w : World) (p : Payload) : List Event × Except HandlerError String :=
  if !w.testOk then ([Event.testCall], Except.error HandlerError.apiKeyRejected)
  else
    match w.initResp with
    | Except.error (c, b) =>
      ([Event.testCall, Event.initCall], Except.error (HandlerError.initFailed c b))
    | Except.ok none => ([Event.testCall, Event.initCall], Except.error HandlerError.noUploadUrl)
    | Except.ok (some _) =>
      match stitchUpload w.chunkStore w.blockResp w.finalizeResp p.totalChunks with
      | (evsU, Except.error e) => (Event.testCall :: Event.initCall :: evsU, Except.error e)
      | (evsU, Except.ok _) =>
        match waitForFileActive w.poll with
        | (evsP, Except.error e) =>
          (Event.testCall :: Event.initCall :: (evsU ++ evsP), Except.error e)
        | (evsP, Except.ok _) =>
          match runGeneration w.gen p.model with
          | (evsG, r) => (Event.testCall :: Event.initCall :: (evsU ++ evsP ++ evsG), r)

/-- Result of one invocation: the terminal records written to the results
store (as key/record pairs, in order) and the trace of external calls. -/
structure RunResult where
  writes : List (String × TermRecord)
  events : List Event
deriving DecidableEq

/-- The exported handler: non-POST requests and an empty normalized API key
return without doing anything; a body that fails to parse is caught with
`jobId` still the empty string; a falsy `jobId` returns from inside the try
block; otherwise the pipeline runs and exactly one terminal record is written
under `jobId` — COMPLETED with the generated text, or ERROR with the
sanitized message of the caught error. -/
def handlerRun (w : World) : RunResult :=
  if w.method ≠ "POST" then ⟨[], []⟩
  else if normalizeKey w.apiKeyEnv = "" then ⟨[], []⟩
  else
    match w.body with
    | Except.error m => ⟨[("", TermRecord.error (sanitize w.jsonEnv m))], []⟩
    | Except.ok p =>
      if p.jobId = "" then ⟨[], []⟩
      else
        match pipeline w p with
        | (evs, Except.ok text) => ⟨[(p.jobId, TermRecord.completed text)], evs⟩
        | (evs, Except.error e) =>
          ⟨[(p.jobId, TermRecord.error (sanitize w.jsonEnv e.message))], evs⟩

/-- A chunk store holding exactly the chunks of the list `cs`. -/
def storeOf (cs : List Bytes) : Nat → Option Bytes := fun i => cs[i]?

/-- The bodies of the block-upload requests of a trace, in order. -/
def sentBlocks (evs : List Event) : List Bytes :=
  evs.filterMap fun e =>
    match e with
    | Event.blockUpload _ b => some b
    | _ => none

/-- The byte stream sent to the upload backend: bodies of all block-upload
and finalize requests of a trace, concatenated in order. -/
def sentStream (evs : List Event) : Bytes :=
  (evs.filterMap fun e =>
    match e with
    | Event.blockUpload _ b => some b
    | Event.finalizeUpload _ b => some b
    | _ => none).flatten

/-- The (offset, body) pairs of all upload requests (blocks and finalize) of
a trace, in order. -/
def uploadReqs (evs : List Event) : List (Nat × Bytes) :=
  evs.filterMap fun e =>
    match e with
    | Event.blockUpload o b => some (o, b)
    | Event.finalizeUpload o b => some (o, b)
    | _ => none

/-- Each request's offset equals the cumulative byte count of the requests
before it, starting from `cum`. -/
def offsetsOk : Nat → List (Nat × Bytes) → Prop
| _, [] => True
| cum, (o, b) :: rest => o = cum ∧ offsetsOk (cum + b.length) rest

/-- Block-upload events for the bodies `bs` at consecutive block offsets. -/
def blockEvents : Nat → List Bytes → List Event
| _, [] => []
| off, b :: bs => Event.blockUpload off b :: blockEvents (off + GEMINI_CHUNK_SIZE) bs

/-- Upload requests for the bodies `bs` at consecutive block offsets. -/
def reqsOf : Nat → List Bytes → List (Nat × Bytes)
| _, [] => []
| off, b :: bs => (off, b) :: reqsOf (off + GEMINI_CHUNK_SIZE) bs

/-- No finalize request occurs in the trace. -/
def noFinalize (evs : List Event) : Prop :=
  ∀ o b, Event.finalizeUpload o b ∉ evs

/-- Number of poll requests in a trace. -/
def countPolls (evs : List Event) : Nat :=
  (evs.filter fun e =>
    match e with
    | Event.pollCall _ => true
    | _ => false).length

/-- The trace of a poll loop that times out: `n` polls from attempt `a` on,
each followed by a 2000 ms sleep. -/
def pollTimeoutTrace : Nat → Nat → List Event
| _, 0 => []
| a, n + 1 => Event.pollCall a :: Event.sleepMs 2000 :: pollTimeoutTrace (a + 1) n

/-- A poll response that is neither a terminal state nor a 404 nor a rejected
fetch: the responses the loop swallows and retries. -/
def swallowedPoll : PollResp → Prop
| PollResp.httpErr c => c ≠ 404
| PollResp.ok st => st ≠ some "ACTIVE" ∧ st ≠ some "FAILED"
| PollResp.netErr _ => False

/-- A payload used by concrete scenarios: job `j1`, one chunk, declared
`fileSize = 0`. -/
def basePayload : Payload :=
  { jobId := "j1", totalChunks := 1, mimeType := "audio/webm", mode := "FULL",
    model := "gemini-2.5-pro", fileSize := 0 }

/-- A payload with no chunks at all (`totalChunks = 0`). -/
def zeroChunkPayload : Payload :=
  { jobId := "j1", totalChunks := 0, mimeType := "audio/webm", mode := "FULL",
    model := "gemini-2.5-pro", fileSize := 0 }

/-- A fully healthy world: POST request, good key, all backends accept, the
store holds the single one-byte chunk `[7]`, generation succeeds at once. -/
def baseWorld : World :=
  { method := "POST", apiKeyEnv := some "key", body := Except.ok basePayload,
    jsonEnv := fun _ => none, testOk := true, initResp := Except.ok (some "uploadUrl"),
    chunkStore := storeOf [[7]], blockResp := fun _ => none, finalizeResp := none,
    poll := fun _ => PollResp.ok (some "ACTIVE"), gen := fun _ _ => GenResp.ok (some "out") }

/-- A world whose requested model fails with an HTTP 400 whose body happens to
mention 429, while every other model succeeds immediately. -/
def sneaky429World : World :=
  { baseWorld with
    body := Except.ok zeroChunkPayload,
    gen := fun m _ =>
      if m = "gemini-2.5-pro" then GenResp.httpErr 400 "fail quota 429 info"
      else GenResp.ok (some "fallback-text") }

/-- A world whose requested model fails with a plain HTTP 400 (no 503/429
anywhere in the resulting message); other models would succeed. -/
def fatal400World : World :=
  { baseWorld with
    body := Except.ok zeroChunkPayload,
    gen := fun m _ =>
      if m = "gemini-2.5-pro" then GenResp.httpErr 400 "invalid argument"
      else GenResp.ok (some "fallback-text") }

/-- A world whose API-key preflight test fails. -/
def preflightFailWorld : World :=
  { baseWorld with testOk := false }

/-- A world receiving a GET request. -/
def getWorld : World :=
  { baseWorld with method := "GET" }

/-- A world whose request body does not parse as JSON. -/
def parseFailWorld : World :=
  { baseWorld with body := Except.error "Unexpected token o in JSON" }

theorem storeOf_get (cs : List Bytes) (k : Nat) (hk : k < cs.length) :
    storeOf cs k = some (cs.get ⟨k, hk⟩) := by
  simp [storeOf, List.getElem?_eq_getElem hk]

theorem sentBlocks_append (l1 l2 : List Event) :
    sentBlocks (l1 ++ l2) = sentBlocks l1 ++ sentBlocks l2 := by
  simp [sentBlocks, List.filterMap_append]

theorem uploadReqs_append (l1 l2 : List Event) :
    uploadReqs (l1 ++ l2) = uploadReqs l1 ++ uploadReqs l2 := by
  simp [uploadReqs, List.filterMap_append]

theorem sentStream_append (l1 l2 : List Event) :
    sentStream (l1 ++ l2) = sentStream l1 ++ sentStream l2 := by
  simp [sentStream, List.filterMap_append]

theorem sentBlocks_blockEvents (off : Nat) (bs : List Bytes) :
    sentBlocks (blockEvents off bs) = bs := by
  induction bs generalizing off with
  | nil => simp [blockEvents, sentBlocks]
  | cons b bs ih => simp [blockEvents, sentBlocks] at ih ⊢; exact ih _

theorem uploadReqs_blockEvents (off : Nat) (bs : List Bytes) :
    uploadReqs (blockEvents off bs) = reqsOf off bs := by
  induction bs generalizing off with
  | nil => simp [blockEvents, uploadReqs, reqsOf]
  | cons b bs ih => simp [blockEvents, uploadReqs, reqsOf] at ih ⊢; exact ih _

theorem noFinalize_blockEvents (off : Nat) (bs : List Bytes) :
    noFinalize (blockEvents off bs) := by
  induction bs generalizing off with
  | nil => intro o b hm; simp [blockEvents] at hm
  | cons c cs ih =>
    intro o b hm
    simp [blockEvents] at hm
    exact ih (off + GEMINI_CHUNK_SIZE) o b hm

theorem drainLoop_small (blockResp : Nat → Option (Nat × String)) (buf : Bytes) (off idx : Nat)
    (h : buf.length < GEMINI_CHUNK_SIZE) :
    drainLoop blockResp buf off idx = ([], Except.ok (buf, off, idx)) := by
  rw [drainLoop]
  rw [dif_neg (by omega)]

theorem chunkSizePos : 0 < GEMINI_CHUNK_SIZE := by decide

theorem drainLoop_spec (n : Nat) : ∀ (buf : Bytes), buf.length ≤ n → ∀ (off idx : Nat),
    ∃ bs rest,
      drainLoop (fun _ => none) buf off idx =
        (blockEvents off bs,
         Except.ok (rest, off + GEMINI_CHUNK_SIZE * bs.length, idx + bs.length)) ∧
      bs.flatten ++ rest = buf ∧ rest.length < GEMINI_CHUNK_SIZE ∧
      ∀ b ∈ bs, b.length = GEMINI_CHUNK_SIZE := by
  induction n with
  | zero =>
    intro buf hb off idx
    refine ⟨[], buf, ?_, by simp, ?_, by simp⟩
    · rw [drainLoop, dif_neg (by have := chunkSizePos; omega)]
      simp [blockEvents]
    · have := chunkSizePos
      omega
  | succ n ih =>
    intro buf hb off idx
    by_cases h : GEMINI_CHUNK_SIZE ≤ buf.length
    · have hdl : (buf.drop GEMINI_CHUNK_SIZE).length ≤ n := by
        have := chunkSizePos
        simp only [List.length_drop]
        omega
      obtain ⟨bs, rest, heq, hjoin, hlt, hlen⟩ :=
        ih (buf.drop GEMINI_CHUNK_SIZE) hdl (off + GEMINI_CHUNK_SIZE) (idx + 1)
      refine ⟨buf.take GEMINI_CHUNK_SIZE :: bs, rest, ?_, ?_, hlt, ?_⟩
      · rw [drainLoop, dif_pos h, heq]
        have h1 : off + GEMINI_CHUNK_SIZE + GEMINI_CHUNK_SIZE * bs.length
            = off + GEMINI_CHUNK_SIZE * (List.length (buf.take GEMINI_CHUNK_SIZE :: bs)) := by
          simp only [List.length_cons]
          ring
        have h2 : idx + 1 + bs.length
            = idx + (List.length (buf.take GEMINI_CHUNK_SIZE :: bs)) := by
          simp only [List.length_cons]
          omega
        rw [← h1, ← h2]
        simp [blockEvents]
      · simp only [List.flatten_cons, List.append_assoc, hjoin, List.take_append_drop]
      · intro b hbmem
        rcases List.mem_cons.mp hbmem with hb1 | hb2
        · subst hb1
          simp only [List.length_take]
          omega
        · exact hlen b hb2
    · refine ⟨[], buf, ?_, by simp, by omega, by simp⟩
      rw [drainLoop, dif_neg h]
      simp [blockEvents]

theorem drainLoop_one (buf : Bytes) (off idx : Nat)
    (h1 : GEMINI_CHUNK_SIZE ≤ buf.length) (h2 : buf.length < 2 * GEMINI_CHUNK_SIZE) :
    drainLoop (fun _ => none) buf off idx =
      ([Event.blockUpload off (buf.take GEMINI_CHUNK_SIZE)],
       Except.ok (buf.drop GEMINI_CHUNK_SIZE, off + GEMINI_CHUNK_SIZE, idx + 1)) := by
  rw [drainLoop, dif_pos h1,
    drainLoop_small (fun _ => none) (buf.drop GEMINI_CHUNK_SIZE) (off + GEMINI_CHUNK_SIZE) (idx + 1)
      (by simp only [List.length_drop]; omega)]

theorem reqsOf_append (bs1 bs2 : List Bytes) (off : Nat) :
    reqsOf off (bs1 ++ bs2) = reqsOf off bs1 ++ reqsOf (off + GEMINI_CHUNK_SIZE * bs1.length) bs2 := by
  induction bs1 generalizing off with
  | nil => simp [reqsOf]
  | cons b bs ih =>
    simp only [List.cons_append, reqsOf, List.length_cons, List.append_eq]
    have harith : off + GEMINI_CHUNK_SIZE * (bs.length + 1)
        = off + GEMINI_CHUNK_SIZE + GEMINI_CHUNK_SIZE * bs.length := by ring
    rw [harith, ih (off + GEMINI_CHUNK_SIZE)]

theorem flatten_length_blocks (bs : List Bytes)
    (h : ∀ b ∈ bs, b.length = GEMINI_CHUNK_SIZE) :
    bs.flatten.length = GEMINI_CHUNK_SIZE * bs.length := by
  induction bs with
  | nil => simp
  | cons b bs ih =>
    simp only [List.flatten_cons, List.length_append, List.length_cons]
    rw [h b (List.mem_cons_self b bs), ih fun x hx => h x (List.mem_cons_of_mem b hx)]
    ring

theorem offsetsOk_reqsOf_final (bs : List Bytes) : ∀ (cum : Nat) (rest : Bytes),
    (∀ b ∈ bs, b.length = GEMINI_CHUNK_SIZE) →
    offsetsOk cum (reqsOf cum bs ++ [(cum + GEMINI_CHUNK_SIZE * bs.length, rest)]) := by
  induction bs with
  | nil => intro cum rest _; simp [reqsOf, offsetsOk]
  | cons b bs ih =>
    intro cum rest h
    simp only [reqsOf, List.cons_append, offsetsOk, List.length_cons]
    refine ⟨by trivial, ?_⟩
    rw [h b (List.mem_cons_self b bs)]
    have harith : cum + GEMINI_CHUNK_SIZE * (bs.length + 1)
        = cum + GEMINI_CHUNK_SIZE + GEMINI_CHUNK_SIZE * bs.length := by ring
    rw [harith]
    exact ih (cum + GEMINI_CHUNK_SIZE) rest fun x hx => h x (List.mem_cons_of_mem b hx)

theorem sentStream_of_noFinalize (evs : List Event) (h : noFinalize evs) :
    sentStream evs = (sentBlocks evs).flatten := by
  induction evs with
  | nil => simp [sentStream, sentBlocks]
  | cons e evs ih =>
    have h' : noFinalize evs := fun o b hm => h o b (List.mem_cons_of_mem _ hm)
    cases e with
    | finalizeUpload o b => exact absurd (List.mem_cons_self _ _) (h o b)
    | blockUpload o b =>
      simp only [sentStream, sentBlocks, List.filterMap_cons] at ih ⊢
      simp [ih h']
    | testCall => simpa [sentStream, sentBlocks] using ih h'
    | initCall => simpa [sentStream, sentBlocks] using ih h'
    | storeGet i => simpa [sentStream, sentBlocks] using ih h'
    | storeDelete i => simpa [sentStream, sentBlocks] using ih h'
    | pollCall k => simpa [sentStream, sentBlocks] using ih h'
    | sleepMs ms => simpa [sentStream, sentBlocks] using ih h'
    | genCall m f => simpa [sentStream, sentBlocks] using ih h'

theorem noFinalize_nil : noFinalize [] := by
  intro o b hm
  simp at hm

theorem chunkLoop_spec : ∀ (cs : List Bytes) (store : Nat → Option Bytes) (i : Nat),
    (∀ k (hk : k < cs.length), store (i + k) = some (cs.get ⟨k, hk⟩)) →
    ∀ (buf : Bytes) (off idx : Nat),
    ∃ evs rest off2 idx2,
      chunkLoop store (fun _ => none) cs.length i buf off idx
        = (evs, Except.ok (rest, off2, idx2)) ∧
      (sentBlocks evs).flatten ++ rest = buf ++ cs.flatten ∧
      (cs = [] → rest = buf) ∧
      (cs ≠ [] → rest.length < GEMINI_CHUNK_SIZE) ∧
      noFinalize evs ∧
      off2 = off + GEMINI_CHUNK_SIZE * (sentBlocks evs).length ∧
      uploadReqs evs = reqsOf off (sentBlocks evs) ∧
      (∀ b ∈ sentBlocks evs, b.length = GEMINI_CHUNK_SIZE) := by
  intro cs
  induction cs with
  | nil =>
    intro store i h buf off idx
    refine ⟨[], buf, off, idx, ?_, by simp [sentBlocks], fun _ => rfl, fun habs => absurd rfl habs,
      noFinalize_nil, by simp [sentBlocks], by simp [sentBlocks, uploadReqs, reqsOf], by simp [sentBlocks]⟩
    simp [chunkLoop]
  | cons c cs ih =>
    intro store i h buf off idx
    have hc : store i = some c := by
      have h0 := h 0 (by simp)
      simpa using h0
    obtain ⟨bs, rest1, heq1, hjoin1, hlt1, hlen1⟩ :=
      drainLoop_spec (buf ++ c).length (buf ++ c) le_rfl off idx
    have h' : ∀ k (hk : k < cs.length), store (i + 1 + k) = some (cs.get ⟨k, hk⟩) := by
      intro k hk
      have hk1 : k + 1 < (c :: cs).length := by simp; omega
      have hgot := h (k + 1) hk1
      have harith : i + (k + 1) = i + 1 + k := by omega
      rw [harith] at hgot
      simpa using hgot
    obtain ⟨evs2, rest2, off2, idx2, heq2, hjoin2, hnil2, hlt2, hnf2, hoff2, hreq2, hlen2⟩ :=
      ih store (i + 1) h' rest1 (off + GEMINI_CHUNK_SIZE * bs.length) (idx + bs.length)
    have hsb : sentBlocks (Event.storeGet i :: Event.storeDelete i :: (blockEvents off bs ++ evs2))
        = bs ++ sentBlocks evs2 := by
      simp [sentBlocks, List.filterMap_append]
      have := sentBlocks_blockEvents off bs
      simp [sentBlocks] at this
      rw [this]
    refine ⟨Event.storeGet i :: Event.storeDelete i :: (blockEvents off bs ++ evs2),
      rest2, off2, idx2, ?_, ?_, ?_, ?_, ?_, ?_, ?_, ?_⟩
    · show chunkLoop store (fun _ => none) (cs.length + 1) i buf off idx = _
      rw [chunkLoop, hc]
      simp only [heq1, heq2]
    · rw [hsb, List.flatten_append, List.append_assoc, hjoin2, ← List.append_assoc, hjoin1]
      simp
    · intro habs
      exact absurd habs (List.cons_ne_nil c cs)
    · intro _
      rcases eq_or_ne cs [] with hcs | hcs
      · rw [hnil2 hcs]
        exact hlt1
      · exact hlt2 hcs
    · intro o b hm
      simp only [List.mem_cons, List.mem_append] at hm
      rcases hm with hm | hm | hm | hm
      · exact Event.noConfusion hm
      · exact Event.noConfusion hm
      · exact noFinalize_blockEvents off bs o b hm
      · exact hnf2 o b hm
    · rw [hsb, hoff2, List.length_append]
      ring
    · rw [hsb]
      have hureq : uploadReqs (Event.storeGet i :: Event.storeDelete i :: (blockEvents off bs ++ evs2))
          = reqsOf off bs ++ uploadReqs evs2 := by
        simp [uploadReqs, List.filterMap_append]
        have := uploadReqs_blockEvents off bs
        simp [uploadReqs] at this
        rw [this]
      rw [hureq, hreq2, reqsOf_append]
    · intro b hb
      rw [hsb] at hb
      rcases List.mem_append.mp hb with hb | hb
      · exact hlen1 b hb
      · exact hlen2 b hb

theorem chunkLoop_missing : ∀ (cs : List Bytes) (store : Nat → Option Bytes) (i n : Nat),
    (∀ k (hk : k < cs.length), store (i + k) = some (cs.get ⟨k, hk⟩)) →
    store (i + cs.length) = none → cs.length < n →
    ∀ (buf : Bytes) (off idx : Nat),
    ∃ evs,
      chunkLoop store (fun _ => none) n i buf off idx
        = (evs, Except.error (HandlerError.missingChunk (i + cs.length))) ∧
      noFinalize evs ∧
      (∃ tail, (sentBlocks evs).flatten ++ tail = buf ++ cs.flatten) := by
  intro cs
  induction cs with
  | nil =>
    intro store i n h hmiss hn buf off idx
    obtain ⟨m, rfl⟩ : ∃ m, n = m + 1 := ⟨n - 1, by omega⟩
    have hmiss' : store i = none := by simpa using hmiss
    refine ⟨[Event.storeGet i], ?_, ?_, ⟨buf, by simp [sentBlocks]⟩⟩
    · rw [chunkLoop, hmiss']
      simp
    · intro o b hm
      simp at hm
  | cons c cs ih =>
    intro store i n h hmiss hn buf off idx
    obtain ⟨m, rfl⟩ : ∃ m, n = m + 1 := ⟨n - 1, by omega⟩
    have hc : store i = some c := by
      have h0 := h 0 (by simp)
      simpa using h0
    obtain ⟨bs, rest1, heq1, hjoin1, hlt1, hlen1⟩ :=
      drainLoop_spec (buf ++ c).length (buf ++ c) le_rfl off idx
    have h' : ∀ k (hk : k < cs.length), store (i + 1 + k) = some (cs.get ⟨k, hk⟩) := by
      intro k hk
      have hk1 : k + 1 < (c :: cs).length := by simp; omega
      have hgot := h (k + 1) hk1
      have harith : i + (k + 1) = i + 1 + k := by omega
      rw [harith] at hgot
      simpa using hgot
    have hmiss' : store (i + 1 + cs.length) = none := by
      have harith : i + (c :: cs).length = i + 1 + cs.length := by simp; omega
      rw [harith] at hmiss
      exact hmiss
    obtain ⟨evs2, heq2, hnf2, tail2, hjoin2⟩ :=
      ih store (i + 1) m h' hmiss' (by simp at hn; omega) rest1
        (off + GEMINI_CHUNK_SIZE * bs.length) (idx + bs.length)
    have hidx : i + (c :: cs).length = i + 1 + cs.length := by simp; omega
    refine ⟨Event.storeGet i :: Event.storeDelete i :: (blockEvents off bs ++ evs2), ?_, ?_, ?_⟩
    · rw [chunkLoop, hc]
      simp only [heq1, heq2, hidx]
    · intro o b hm
      simp only [List.mem_cons, List.mem_append] at hm
      rcases hm with hm | hm | hm | hm
      · exact Event.noConfusion hm
      · exact Event.noConfusion hm
      · exact noFinalize_blockEvents off bs o b hm
      · exact hnf2 o b hm
    · refine ⟨tail2, ?_⟩
      have hsb : sentBlocks (Event.storeGet i :: Event.storeDelete i :: (blockEvents off bs ++ evs2))
          = bs ++ sentBlocks evs2 := by
        simp [sentBlocks, List.filterMap_append]
        have := sentBlocks_blockEvents off bs
        simp [sentBlocks] at this
        rw [this]
      rw [hsb, List.flatten_append, List.append_assoc, hjoin2, ← List.append_assoc, hjoin1]
      simp

theorem stitchUpload_spec (cs : List Bytes) (store : Nat → Option Bytes)
    (hstore : ∀ k (hk : k < cs.length), store k = some (cs.get ⟨k, hk⟩)) :
    ∃ evsC rest off2,
      stitchUpload store (fun _ => none) none cs.length
        = (evsC ++ [Event.finalizeUpload off2 rest], Except.ok (rest, off2)) ∧
      noFinalize evsC ∧
      sentStream (evsC ++ [Event.finalizeUpload off2 rest]) = cs.flatten ∧
      off2 = GEMINI_CHUNK_SIZE * (sentBlocks evsC).length ∧
      uploadReqs (evsC ++ [Event.finalizeUpload off2 rest])
        = reqsOf 0 (sentBlocks evsC) ++ [(off2, rest)] ∧
      offsetsOk 0 (uploadReqs (evsC ++ [Event.finalizeUpload off2 rest])) ∧
      (∀ b ∈ sentBlocks evsC, b.length = GEMINI_CHUNK_SIZE) := by
  have h0 : ∀ k (hk : k < cs.length), store (0 + k) = some (cs.get ⟨k, hk⟩) := by
    intro k hk
    simpa using hstore k hk
  obtain ⟨evs, rest, off2, idx2, heq, hjoin, _, _, hnf, hoff, hreq, hlen⟩ :=
    chunkLoop_spec cs store 0 h0 [] 0 0
  have hoff' : off2 = GEMINI_CHUNK_SIZE * (sentBlocks evs).length := by
    simpa using hoff
  have hstream : sentStream (evs ++ [Event.finalizeUpload off2 rest]) = cs.flatten := by
    rw [sentStream_append, sentStream_of_noFinalize evs hnf]
    have hfin : sentStream [Event.finalizeUpload off2 rest] = rest := by
      simp [sentStream]
    rw [hfin, hjoin]
    simp
  have hureq : uploadReqs (evs ++ [Event.finalizeUpload off2 rest])
      = reqsOf 0 (sentBlocks evs) ++ [(off2, rest)] := by
    rw [uploadReqs_append, hreq]
    simp [uploadReqs]
  refine ⟨evs, rest, off2, ?_, hnf, hstream, hoff', hureq, ?_, hlen⟩
  · rw [stitchUpload.eq_def, heq]
  · rw [hureq, hoff']
    have := offsetsOk_reqsOf_final (sentBlocks evs) 0 rest hlen
    simpa using this

theorem stitch_two_chunks (c0 c1 : Bytes) (store2 : Nat → Option Bytes)
    (hs0 : store2 0 = some c0) (hs1 : store2 1 = some c1)
    (hl0 : c0.length = 5 * 1024 * 1024) (hl1 : c1.length = 4 * 1024 * 1024) :
    stitchUpload store2 (fun _ => none) none 2 =
      ([Event.storeGet 0, Event.storeDelete 0, Event.storeGet 1, Event.storeDelete 1,
        Event.blockUpload 0 ((c0 ++ c1).take GEMINI_CHUNK_SIZE),
        Event.finalizeUpload GEMINI_CHUNK_SIZE ((c0 ++ c1).drop GEMINI_CHUNK_SIZE)],
       Except.ok ((c0 ++ c1).drop GEMINI_CHUNK_SIZE, GEMINI_CHUNK_SIZE)) := by
  have hd0 : drainLoop (fun _ => none) c0 0 0 = ([], Except.ok (c0, 0, 0)) :=
    drainLoop_small _ c0 0 0 (by rw [hl0]; decide)
  have hd1 : drainLoop (fun _ => none) (c0 ++ c1) 0 0 =
      ([Event.blockUpload 0 ((c0 ++ c1).take GEMINI_CHUNK_SIZE)],
       Except.ok ((c0 ++ c1).drop GEMINI_CHUNK_SIZE, GEMINI_CHUNK_SIZE, 1)) := by
    have hone := drainLoop_one (c0 ++ c1) 0 0
      (by rw [List.length_append, hl0, hl1]; decide)
      (by rw [List.length_append, hl0, hl1]; decide)
    simpa using hone
  simp only [stitchUpload, chunkLoop, hs0, hs1, List.nil_append, hd0, hd1,
    List.append_nil, List.cons_append]

theorem pollLoop_timeout (poll : Nat → PollResp) : ∀ (fuel a : Nat),
    (∀ k, a ≤ k → k < a + fuel → swallowedPoll (poll k)) →
    pollLoop poll fuel a = (pollTimeoutTrace a fuel, Except.error HandlerError.pollTimeout) := by
  intro fuel
  induction fuel with
  | zero => intro a _; simp [pollLoop, pollTimeoutTrace]
  | succ n ih =>
    intro a h
    have ha := h a (le_refl a) (by omega)
    have hrec := ih (a + 1) fun k hk1 hk2 => h k (by omega) (by omega)
    rcases hp : poll a with st | c | m
    · rw [hp] at ha
      simp only [swallowedPoll] at ha
      simp only [pollLoop, hp, if_neg ha.1, if_neg ha.2, hrec, pollTimeoutTrace]
    · rw [hp] at ha
      simp only [swallowedPoll] at ha
      simp only [pollLoop, hp, if_neg ha, hrec, pollTimeoutTrace]
    · rw [hp] at ha
      simp only [swallowedPoll] at ha

theorem countPolls_cons_poll (a : Nat) (rest : List Event) :
    countPolls (Event.pollCall a :: rest) = countPolls rest + 1 := by
  simp [countPolls, List.filter_cons]

theorem countPolls_cons_sleep (ms : Nat) (rest : List Event) :
    countPolls (Event.sleepMs ms :: rest) = countPolls rest := by
  simp [countPolls, List.filter_cons]

theorem countPolls_timeoutTrace : ∀ (n a : Nat), countPolls (pollTimeoutTrace a n) = n := by
  intro n
  induction n with
  | zero => intro a; simp [pollTimeoutTrace, countPolls]
  | succ m ih =>
    intro a
    show countPolls (Event.pollCall a :: Event.sleepMs 2000 :: pollTimeoutTrace (a + 1) m) = m + 1
    rw [countPolls_cons_poll, countPolls_cons_sleep, ih (a + 1)]

theorem pollLoop_polls_le (poll : Nat → PollResp) : ∀ (fuel a : Nat),
    countPolls (pollLoop poll fuel a).1 ≤ fuel := by
  intro fuel
  induction fuel with
  | zero => intro a; simp [pollLoop, countPolls]
  | succ n ih =>
    intro a
    rcases hp : poll a with st | c | m
    · simp only [pollLoop, hp]
      split_ifs
      · simp [countPolls]
      · simp [countPolls]
      · rcases hrec : pollLoop poll n (a + 1) with ⟨evs, r⟩
        have hle := ih (a + 1)
        rw [hrec] at hle
        simp only [hrec]
        rw [countPolls_cons_poll, countPolls_cons_sleep]
        have hle2 : countPolls evs ≤ n := hle
        omega
    · simp only [pollLoop, hp]
      split_ifs
      · simp [countPolls]
      · rcases hrec : pollLoop poll n (a + 1) with ⟨evs, r⟩
        have hle := ih (a + 1)
        rw [hrec] at hle
        simp only [hrec]
        rw [countPolls_cons_poll, countPolls_cons_sleep]
        have hle2 : countPolls evs ≤ n := hle
        omega
    · simp [pollLoop, hp, countPolls]

theorem genLoop_models (respond : Nat → GenResp) (mm : String) : ∀ (fuel f a : Nat) (mod : String) (fi : Nat),
    Event.genCall mod fi ∈ (genLoop respond mm fuel f a).1 → mod = mm := by
  intro fuel
  induction fuel with
  | zero => intro f a mod fi hm; simp [genLoop] at hm
  | succ n ih =>
    intro f a mod fi hm
    rcases hr : respond f with t | ⟨c, b⟩ | m
    · simp only [genLoop, hr] at hm
      simp at hm
      exact hm.1
    · simp only [genLoop, hr] at hm
      split_ifs at hm
      · simp at hm
        exact hm.1
      · rcases hrec : genLoop respond mm n (f + 1) (a + 1) with ⟨evs, r⟩
        rw [hrec] at hm
        simp at hm
        rcases hm with ⟨h1, _⟩ | hm
        · exact h1
        · exact ih (f + 1) (a + 1) mod fi (by rw [hrec]; exact hm)
      · simp at hm
        exact hm.1
    · simp only [genLoop, hr] at hm
      split_ifs at hm
      · simp at hm
        exact hm.1
      · simp at hm
        exact hm.1
      · rcases hrec : genLoop respond mm n (f + 1) (a + 1) with ⟨evs, r⟩
        rw [hrec] at hm
        simp at hm
        rcases hm with ⟨h1, _⟩ | hm
        · exact h1
        · exact ih (f + 1) (a + 1) mod fi (by rw [hrec]; exact hm)

theorem generateContentREST_overloaded (respond : Nat → GenResp) (model : String)
    (code : Nat) (s : String) (hcode : code = 503 ∨ code = 429)
    (h : ∀ f, respond f = GenResp.httpErr code s) :
    generateContentREST respond model =
      ([Event.genCall model 0, Event.sleepMs 1000, Event.genCall model 1,
        Event.sleepMs 2000, Event.genCall model 2],
       Except.error (HandlerError.genOverloaded model)) := by
  rcases hcode with rfl | rfl <;>
    simp [generateContentREST, genLoop, h, maxRetries]

theorem generateContentREST_ok (respond : Nat → GenResp) (model : String) (t : String)
    (h : respond 0 = GenResp.ok (some t)) (ht : t ≠ "") :
    generateContentREST respond model = ([Event.genCall model 0], Except.ok t) := by
  simp [generateContentREST, genLoop, h, ht]

theorem strHas_append_right (sub : List Char) : ∀ (l1 l2 : List Char),
    strHas sub l2 = true → strHas sub (l1 ++ l2) = true := by
  intro l1
  induction l1 with
  | nil => intro l2 h; simpa using h
  | cons c cs ih =>
    intro l2 h
    rw [List.cons_append, strHas, ih l2 h]
    simp

theorem overloaded_includes_503 (model : String) :
    jsIncludes (HandlerError.genOverloaded model).message "503" = true := by
  show strHas "503".data ("Model " ++ model ++ " Overloaded (503)").data = true
  have hdata : ("Model " ++ model ++ " Overloaded (503)").data
      = ("Model " ++ model).data ++ " Overloaded (503)".data := String.data_append _ _
  rw [hdata]
  apply strHas_append_right
  decide

theorem fallbackLoop_cons_ok (gen : String → Nat → GenResp) (m : String) (rest : List String)
    (evs : List Event) (t : String)
    (h : generateContentREST (gen m) m = (evs, Except.ok t)) :
    fallbackLoop gen (m :: rest) = (evs, some (Except.ok t)) := by
  simp [fallbackLoop, h]

theorem fallbackLoop_cons_transient (gen : String → Nat → GenResp) (m : String) (rest : List String)
    (evs : List Event) (e : HandlerError)
    (h : generateContentREST (gen m) m = (evs, Except.error e))
    (hinc : jsIncludes e.message "503" = true ∨ jsIncludes e.message "429" = true) :
    fallbackLoop gen (m :: rest)
      = (evs ++ (fallbackLoop gen rest).1, (fallbackLoop gen rest).2) := by
  have hcond : (jsIncludes e.message "503" || jsIncludes e.message "429") = true := by
    rcases hinc with h1 | h1 <;> simp [h1]
  rcases hr : fallbackLoop gen rest with ⟨evs2, r2⟩
  simp [fallbackLoop, h, hcond, hr]

theorem fallbackLoop_cons_fatal (gen : String → Nat → GenResp) (m : String) (rest : List String)
    (evs : List Event) (e : HandlerError)
    (h : generateContentREST (gen m) m = (evs, Except.error e))
    (h503 : jsIncludes e.message "503" = false)
    (h429 : jsIncludes e.message "429" = false) :
    fallbackLoop gen (m :: rest) = (evs, some (Except.error e)) := by
  simp [fallbackLoop, h, h503, h429]

/-- Claim C1: for every job whose chunk store holds chunks at all indices
`0..totalChunks-1`, the byte stream sent to the upload backend (all upload
blocks in order followed by the finalize body) equals the byte-for-byte
concatenation of the decoded chunks in increasing index order, regardless of
block-boundary alignment; and in the concrete scenario with a 5 MiB chunk 0
and a 4 MiB chunk 1, exactly one 8 MiB block is sent followed by one 1 MiB
finalize request, 9 MiB in total. -/
theorem C1_reassembled_stream_eq_concat (cs : List Bytes) (store : Nat → Option Bytes)
    (hstore : ∀ k (hk : k < cs.length), store k = some (cs.get ⟨k, hk⟩)) :
    (∃ evs rest off2,
      stitchUpload store (fun _ => none) none cs.length = (evs, Except.ok (rest, off2)) ∧
      sentStream evs = cs.flatten) ∧
    (∀ (c0 c1 : Bytes) (store2 : Nat → Option Bytes),
      store2 0 = some c0 → store2 1 = some c1 →
      c0.length = 5 * 1024 * 1024 → c1.length = 4 * 1024 * 1024 →
      stitchUpload store2 (fun _ => none) none 2 =
        ([Event.storeGet 0, Event.storeDelete 0, Event.storeGet 1, Event.storeDelete 1,
          Event.blockUpload 0 ((c0 ++ c1).take GEMINI_CHUNK_SIZE),
          Event.finalizeUpload GEMINI_CHUNK_SIZE ((c0 ++ c1).drop GEMINI_CHUNK_SIZE)],
         Except.ok ((c0 ++ c1).drop GEMINI_CHUNK_SIZE, GEMINI_CHUNK_SIZE)) ∧
      ((c0 ++ c1).take GEMINI_CHUNK_SIZE).length = 8 * 1024 * 1024 ∧
      ((c0 ++ c1).drop GEMINI_CHUNK_SIZE).length = 1 * 1024 * 1024 ∧
      sentStream [Event.storeGet 0, Event.storeDelete 0, Event.storeGet 1, Event.storeDelete 1,
          Event.blockUpload 0 ((c0 ++ c1).take GEMINI_CHUNK_SIZE),
          Event.finalizeUpload GEMINI_CHUNK_SIZE ((c0 ++ c1).drop GEMINI_CHUNK_SIZE)]
        = c0 ++ c1 ∧
      (c0 ++ c1).length = 9 * 1024 * 1024) := by
  constructor
  · obtain ⟨evsC, rest, off2, heq, _, hstream, _, _, _, _⟩ := stitchUpload_spec cs store hstore
    exact ⟨evsC ++ [Event.finalizeUpload off2 rest], rest, off2, heq, hstream⟩
  · intro c0 c1 store2 hs0 hs1 hl0 hl1
    refine ⟨stitch_two_chunks c0 c1 store2 hs0 hs1 hl0 hl1, ?_, ?_, ?_, ?_⟩
    · rw [List.length_take, List.length_append, hl0, hl1]
      decide
    · rw [List.length_drop, List.length_append, hl0, hl1]
      decide
    · simp [sentStream, List.take_append_drop]
    · rw [List.length_append, hl0, hl1]

/-- Witness for C1 at a concrete input: two chunks of 5 MiB and 4 MiB. -/
theorem C1_witness :
    (∃ evs rest off2,
      stitchUpload
          (storeOf [List.replicate (5 * 1024 * 1024) 0, List.replicate (4 * 1024 * 1024) 1])
          (fun _ => none) none
          ([List.replicate (5 * 1024 * 1024) (0 : Nat),
            List.replicate (4 * 1024 * 1024) 1] : List Bytes).length
        = (evs, Except.ok (rest, off2)) ∧
      sentStream evs
        = ([List.replicate (5 * 1024 * 1024) (0 : Nat),
            List.replicate (4 * 1024 * 1024) 1] : List Bytes).flatten) ∧
    (List.replicate (5 * 1024 * 1024) (0 : Nat)).length = 5 * 1024 * 1024 ∧
    (List.replicate (4 * 1024 * 1024) (1 : Nat)).length = 4 * 1024 * 1024 := by
  have h := C1_reassembled_stream_eq_concat
      [List.replicate (5 * 1024 * 1024) 0, List.replicate (4 * 1024 * 1024) 1]
      (storeOf [List.replicate (5 * 1024 * 1024) 0, List.replicate (4 * 1024 * 1024) 1])
      (fun k hk => storeOf_get _ k hk)
  exact ⟨h.1, List.length_replicate _ _, List.length_replicate _ _⟩

/-- Claim C2 counterexample: in `baseWorld` the job declares `fileSize = 0`
but the store holds a one-byte chunk; the client sends 1 byte in total, issues
the finalize request anyway, and the job even completes — there is no
precondition check of cumulative bytes against declared `fileSize` before
finalizing. -/
theorem C2_counterexample :
    basePayload.fileSize = 0 ∧
    handlerRun baseWorld =
      ⟨[("j1", TermRecord.completed "out")],
       [Event.testCall, Event.initCall, Event.storeGet 0, Event.storeDelete 0,
        Event.finalizeUpload 0 [7], Event.pollCall 0, Event.genCall "gemini-2.5-pro" 0]⟩ ∧
    (sentStream [Event.testCall, Event.initCall, Event.storeGet 0, Event.storeDelete 0,
        Event.finalizeUpload 0 [7], Event.pollCall 0,
        Event.genCall "gemini-2.5-pro" 0]).length = 1 ∧
    (1 : Nat) ≠ 0 := by
  have hd : drainLoop (fun _ => none) [7] 0 0 = ([], Except.ok ([7], 0, 0)) :=
    drainLoop_small _ _ _ _ (by decide)
  have hstitch : stitchUpload (storeOf [[7]]) (fun _ => none) none 1
      = ([Event.storeGet 0, Event.storeDelete 0, Event.finalizeUpload 0 [7]],
         Except.ok ([7], 0)) := by
    simp [stitchUpload, chunkLoop, storeOf, hd]
  have hpoll2 : waitForFileActive (fun _ => PollResp.ok (some "ACTIVE"))
      = ([Event.pollCall 0], Except.ok ()) := rfl
  have hgen2 : runGeneration (fun _ _ => GenResp.ok (some "out")) "gemini-2.5-pro"
      = ([Event.genCall "gemini-2.5-pro" 0], Except.ok "out") := rfl
  have hpipe : pipeline baseWorld basePayload
      = ([Event.testCall, Event.initCall, Event.storeGet 0, Event.storeDelete 0,
          Event.finalizeUpload 0 [7], Event.pollCall 0, Event.genCall "gemini-2.5-pro" 0],
         Except.ok "out") := by
    simp [pipeline, baseWorld, basePayload, hstitch, hpoll2, hgen2]
  refine ⟨rfl, ?_, by simp [sentStream], by decide⟩
  have hmeth : baseWorld.method = "POST" := rfl
  have hbody : baseWorld.body = Except.ok basePayload := rfl
  have hkey : normalizeKey baseWorld.apiKeyEnv = "key" := by decide
  have hjob : basePayload.jobId = "j1" := rfl
  simp [handlerRun, hmeth, hbody, hkey, hjob, hpipe]

/-- Claim C2 (amended): the upload offset starts at 0 and advances by exactly
the number of bytes sent on each accepted request, so every request (block or
finalize) carries an offset equal to the cumulative bytes transferred before
it; the sum of all bytes sent across upload and finalize steps equals the
total size of the decoded chunks (the declared `fileSize` is involved only if
the caller declared it accurately, and no precondition check of this equality
is performed before finalize). -/
theorem C2_offsets_amended (cs : List Bytes) (store : Nat → Option Bytes)
    (hstore : ∀ k (hk : k < cs.length), store k = some (cs.get ⟨k, hk⟩)) :
    ∃ evs rest off2,
      stitchUpload store (fun _ => none) none cs.length = (evs, Except.ok (rest, off2)) ∧
      offsetsOk 0 (uploadReqs evs) ∧
      (sentStream evs).length = (cs.map List.length).sum ∧
      off2 + rest.length = (cs.map List.length).sum := by
  obtain ⟨evsC, rest, off2, heq, hnf, hstream, hoff, hureq, hok, hlen⟩ :=
    stitchUpload_spec cs store hstore
  refine ⟨evsC ++ [Event.finalizeUpload off2 rest], rest, off2, heq, hok, ?_, ?_⟩
  · rw [hstream, List.length_flatten]
  · have e1 : sentStream (evsC ++ [Event.finalizeUpload off2 rest])
        = (sentBlocks evsC).flatten ++ rest := by
      rw [sentStream_append, sentStream_of_noFinalize evsC hnf]
      simp [sentStream]
    have e2 : (sentBlocks evsC).flatten.length
        = GEMINI_CHUNK_SIZE * (sentBlocks evsC).length :=
      flatten_length_blocks _ hlen
    calc off2 + rest.length
        = (sentBlocks evsC).flatten.length + rest.length := by rw [hoff, e2]
      _ = (sentStream (evsC ++ [Event.finalizeUpload off2 rest])).length := by
          rw [e1, List.length_append]
      _ = cs.flatten.length := by rw [hstream]
      _ = (cs.map List.length).sum := List.length_flatten cs

/-- Witness for C2 (amended) at a concrete one-chunk store. -/
theorem C2_witness :
    ∃ evs rest off2,
      stitchUpload (storeOf [[7]]) (fun _ => none) none 1 = (evs, Except.ok (rest, off2)) ∧
      offsetsOk 0 (uploadReqs evs) ∧
      (sentStream evs).length = 1 ∧
      off2 + rest.length = 1 := by
  have h := C2_offsets_amended [[7]] (storeOf [[7]]) (fun k hk => storeOf_get _ k hk)
  simpa using h

/-- One successful iteration of the chunk loop, as an equation. -/
theorem chunkLoop_cons_step (store : Nat → Option Bytes) (br : Nat → Option (Nat × String))
    (n i : Nat) (buf : Bytes) (off idx : Nat) (chunk : Bytes) (evs1 : List Event)
    (buf2 : Bytes) (off2 idx2 : Nat) (evs2 : List Event)
    (res : Except HandlerError (Bytes × Nat × Nat))
    (hst : store i = some chunk)
    (hdrain : drainLoop br (buf ++ chunk) off idx = (evs1, Except.ok (buf2, off2, idx2)))
    (hrec : chunkLoop store br n (i + 1) buf2 off2 idx2 = (evs2, res)) :
    chunkLoop store br (n + 1) i buf off idx
      = (Event.storeGet i :: Event.storeDelete i :: (evs1 ++ evs2), res) := by
  rw [chunkLoop, hst]
  simp only [hdrain, hrec]

/-- The chunk loop aborts when the store misses the current index. -/
theorem chunkLoop_miss_step (store : Nat → Option Bytes) (br : Nat → Option (Nat × String))
    (n i : Nat) (buf : Bytes) (off idx : Nat) (hst : store i = none) :
    chunkLoop store br (n + 1) i buf off idx
      = ([Event.storeGet i], Except.error (HandlerError.missingChunk i)) := by
  rw [chunkLoop, hst]

/-- A chunk-loop error passes through `stitchUpload` unchanged. -/
theorem stitchUpload_error_step (store : Nat → Option Bytes) (br : Nat → Option (Nat × String))
    (fr : Option (Nat × String)) (n : Nat) (evs : List Event) (e : HandlerError)
    (h : chunkLoop store br n 0 [] 0 0 = (evs, Except.error e)) :
    stitchUpload store br fr n = (evs, Except.error e) := by
  rw [stitchUpload.eq_def, h]

/-- Claim C3 counterexample: with an 8 MiB chunk 0 present and chunk 1 absent
(`totalChunks = 2`), the job does abort with the missing-chunk error, but one
8 MiB upload block has already been sent — "no upload block is sent for that
job" is false. -/
theorem C3_counterexample :
    storeOf [List.replicate GEMINI_CHUNK_SIZE 0] 1 = none ∧ (1 : Nat) < 2 ∧
    (stitchUpload (storeOf [List.replicate GEMINI_CHUNK_SIZE 0]) (fun _ => none) none 2).2
      = Except.error (HandlerError.missingChunk 1) ∧
    sentBlocks (stitchUpload (storeOf [List.replicate GEMINI_CHUNK_SIZE 0])
        (fun _ => none) none 2).1
      = [List.replicate GEMINI_CHUNK_SIZE 0] := by
  have hs0 : storeOf [List.replicate GEMINI_CHUNK_SIZE 0] 0
      = some (List.replicate GEMINI_CHUNK_SIZE 0) := rfl
  have hs1 : storeOf [List.replicate GEMINI_CHUNK_SIZE 0] 1 = none := rfl
  have hlen : (List.replicate GEMINI_CHUNK_SIZE (0 : Nat)).length = GEMINI_CHUNK_SIZE :=
    List.length_replicate _ _
  have htake : (List.replicate GEMINI_CHUNK_SIZE (0 : Nat)).take GEMINI_CHUNK_SIZE
      = List.replicate GEMINI_CHUNK_SIZE 0 := by
    rw [List.take_replicate, min_self]
  have hdrop : (List.replicate GEMINI_CHUNK_SIZE (0 : Nat)).drop GEMINI_CHUNK_SIZE = [] := by
    rw [List.drop_replicate, Nat.sub_self, List.replicate_zero]
  have hd : drainLoop (fun _ => none) ([] ++ List.replicate GEMINI_CHUNK_SIZE 0) 0 0
      = ([Event.blockUpload 0 (List.replicate GEMINI_CHUNK_SIZE 0)],
         Except.ok ([], GEMINI_CHUNK_SIZE, 1)) := by
    rw [List.nil_append]
    have hone := drainLoop_one (List.replicate GEMINI_CHUNK_SIZE 0) 0 0
      (by rw [hlen]) (by rw [hlen]; have := chunkSizePos; omega)
    rw [htake, hdrop] at hone
    simpa using hone
  have hc1 : chunkLoop (storeOf [List.replicate GEMINI_CHUNK_SIZE 0]) (fun _ => none)
      1 1 [] GEMINI_CHUNK_SIZE 1
      = ([Event.storeGet 1], Except.error (HandlerError.missingChunk 1)) :=
    chunkLoop_miss_step _ _ 0 1 [] GEMINI_CHUNK_SIZE 1 hs1
  have hc2 : chunkLoop (storeOf [List.replicate GEMINI_CHUNK_SIZE 0]) (fun _ => none)
      2 0 [] 0 0
      = (Event.storeGet 0 :: Event.storeDelete 0 ::
          ([Event.blockUpload 0 (List.replicate GEMINI_CHUNK_SIZE 0)] ++ [Event.storeGet 1]),
         Except.error (HandlerError.missingChunk 1)) :=
    chunkLoop_cons_step _ _ 1 0 [] 0 0 (List.replicate GEMINI_CHUNK_SIZE 0)
      [Event.blockUpload 0 (List.replicate GEMINI_CHUNK_SIZE 0)] [] GEMINI_CHUNK_SIZE 1
      [Event.storeGet 1] (Except.error (HandlerError.missingChunk 1)) hs0 hd hc1
  have hstitch : stitchUpload (storeOf [List.replicate GEMINI_CHUNK_SIZE 0])
      (fun _ => none) none 2
      = ([Event.storeGet 0, Event.storeDelete 0,
          Event.blockUpload 0 (List.replicate GEMINI_CHUNK_SIZE 0), Event.storeGet 1],
         Except.error (HandlerError.missingChunk 1)) :=
    stitchUpload_error_step _ _ none 2 _ _ hc2
  rw [hstitch]
  refine ⟨hs1, by decide, rfl, ?_⟩
  simp [sentBlocks]

/-- Claim C3 (amended): if the chunks at indices `0..j-1` are present and the
chunk at index `j < totalChunks` is absent, the job aborts with the
missing-chunk error for index `j`, the error is returned at once (never
retried), no finalize request is ever issued, and every upload block that was
sent consists solely of bytes from the chunks before index `j` (their
concatenation is a prefix of those chunks' bytes); blocks may thus already
have been sent before the abort. -/
theorem C3_missing_chunk_amended (cs : List Bytes) (store : Nat → Option Bytes) (n : Nat)
    (hstore : ∀ k (hk : k < cs.length), store k = some (cs.get ⟨k, hk⟩))
    (hmiss : store cs.length = none) (hn : cs.length < n) :
    ∃ evs,
      stitchUpload store (fun _ => none) none n
        = (evs, Except.error (HandlerError.missingChunk cs.length)) ∧
      noFinalize evs ∧
      (∃ tail, (sentBlocks evs).flatten ++ tail = cs.flatten) := by
  have h0 : ∀ k (hk : k < cs.length), store (0 + k) = some (cs.get ⟨k, hk⟩) := by
    intro k hk
    simpa using hstore k hk
  have hm0 : store (0 + cs.length) = none := by simpa using hmiss
  obtain ⟨evs, heq, hnf, tail, hjoin⟩ := chunkLoop_missing cs store 0 n h0 hm0 hn [] 0 0
  have heq' : chunkLoop store (fun _ => none) n 0 [] 0 0
      = (evs, Except.error (HandlerError.missingChunk cs.length)) := by
    simpa using heq
  refine ⟨evs, ?_, hnf, tail, by simpa using hjoin⟩
  rw [stitchUpload.eq_def, heq']

/-- Witness for C3 (amended): one present chunk `[5]`, chunk 1 absent. -/
theorem C3_witness :
    ∃ evs,
      stitchUpload (storeOf [[5]]) (fun _ => none) none 2
        = (evs, Except.error (HandlerError.missingChunk 1)) ∧
      noFinalize evs ∧
      (∃ tail, (sentBlocks evs).flatten ++ tail = [5]) := by
  have h := C3_missing_chunk_amended [[5]] (storeOf [[5]]) 2
    (fun k hk => storeOf_get _ k hk) rfl (by decide)
  simpa using h

/-- Claim C4: models are tried in exactly the order of the static fallback
table entry (or the singleton chain when none is configured), stopping at the
first success; when the chain is `[A, B, C]` with A always 503 and B always
429, each of A and B is fetched exactly `maxRetries + 1 = 3` times with
linearly increasing delays of 1000 ms and 2000 ms between retries, and the
final result is C's output. -/
theorem C4_fallback_chain_order (model A B C : String) (gen : String → Nat → GenResp)
    (sA sB t : String)
    (hchain : modelsToTry model = [A, B, C])
    (hA : ∀ f, gen A f = GenResp.httpErr 503 sA)
    (hB : ∀ f, gen B f = GenResp.httpErr 429 sB)
    (hC : gen C 0 = GenResp.ok (some t))
    (ht : t ≠ "") :
    runGeneration gen model =
      ([Event.genCall A 0, Event.sleepMs 1000, Event.genCall A 1, Event.sleepMs 2000,
        Event.genCall A 2,
        Event.genCall B 0, Event.sleepMs 1000, Event.genCall B 1, Event.sleepMs 2000,
        Event.genCall B 2,
        Event.genCall C 0],
       Except.ok t) ∧
    (∀ m, FALLBACK_CHAINS m = none → modelsToTry m = [m]) := by
  constructor
  · have hgA := generateContentREST_overloaded (gen A) A 503 sA (Or.inl rfl) hA
    have hgB := generateContentREST_overloaded (gen B) B 429 sB (Or.inr rfl) hB
    have hgC := generateContentREST_ok (gen C) C t hC ht
    have hfC := fallbackLoop_cons_ok gen C [] _ t hgC
    have hfB := fallbackLoop_cons_transient gen B [C] _ _ hgB
      (Or.inl (overloaded_includes_503 B))
    have hfA := fallbackLoop_cons_transient gen A [B, C] _ _ hgA
      (Or.inl (overloaded_includes_503 A))
    simp [runGeneration, hchain, hfA, hfB, hfC]
  · intro m hm
    simp [modelsToTry, hm]

/-- Witness for C4 at the concrete chain of `gemini-2.5-pro`. -/
theorem C4_witness :
    modelsToTry "gemini-2.5-pro"
      = ["gemini-2.5-pro", "gemini-2.0-flash", "gemini-2.5-flash"] ∧
    runGeneration
      (fun m _ =>
        if m = "gemini-2.5-pro" then GenResp.httpErr 503 "overloaded"
        else if m = "gemini-2.0-flash" then GenResp.httpErr 429 "rate"
        else GenResp.ok (some "result")) "gemini-2.5-pro"
      = ([Event.genCall "gemini-2.5-pro" 0, Event.sleepMs 1000,
          Event.genCall "gemini-2.5-pro" 1, Event.sleepMs 2000,
          Event.genCall "gemini-2.5-pro" 2,
          Event.genCall "gemini-2.0-flash" 0, Event.sleepMs 1000,
          Event.genCall "gemini-2.0-flash" 1, Event.sleepMs 2000,
          Event.genCall "gemini-2.0-flash" 2,
          Event.genCall "gemini-2.5-flash" 0],
         Except.ok "result") := by
  have hchain : modelsToTry "gemini-2.5-pro"
      = ["gemini-2.5-pro", "gemini-2.0-flash", "gemini-2.5-flash"] := rfl
  refine ⟨hchain, ?_⟩
  exact (C4_fallback_chain_order "gemini-2.5-pro" "gemini-2.5-pro" "gemini-2.0-flash"
    "gemini-2.5-flash"
    (fun m _ =>
      if m = "gemini-2.5-pro" then GenResp.httpErr 503 "overloaded"
      else if m = "gemini-2.0-flash" then GenResp.httpErr 429 "rate"
      else GenResp.ok (some "result"))
    "overloaded" "rate" "result" hchain (fun f => rfl) (fun f => rfl) rfl (by decide)).1

/-- Claim C5 counterexample: in `sneaky429World` the requested model fails on
its first attempt with a non-transient HTTP 400 (not an overload or rate-limit
status), yet because its message body happens to contain the substring 429,
the fallback model is attempted and the job terminates COMPLETED, not ERROR. -/
theorem C5_counterexample :
    sneaky429World.gen "gemini-2.5-pro" 0 = GenResp.httpErr 400 "fail quota 429 info" ∧
    ¬((400 : Nat) = 503 ∨ (400 : Nat) = 429) ∧
    handlerRun sneaky429World =
      ⟨[("j1", TermRecord.completed "fallback-text")],
       [Event.testCall, Event.initCall, Event.finalizeUpload 0 [], Event.pollCall 0,
        Event.genCall "gemini-2.5-pro" 0, Event.genCall "gemini-2.0-flash" 0]⟩ := by
  refine ⟨rfl, by decide, ?_⟩
  have hmeth : sneaky429World.method = "POST" := rfl
  have hbody : sneaky429World.body = Except.ok zeroChunkPayload := rfl
  have hkey : normalizeKey sneaky429World.apiKeyEnv = "key" := by decide
  have hjob : zeroChunkPayload.jobId = "j1" := rfl
  have hstitch : stitchUpload sneaky429World.chunkStore sneaky429World.blockResp
      sneaky429World.finalizeResp zeroChunkPayload.totalChunks
      = ([Event.finalizeUpload 0 []], Except.ok ([], 0)) := rfl
  have hpoll : waitForFileActive sneaky429World.poll = ([Event.pollCall 0], Except.ok ()) := rfl
  have hgen : runGeneration sneaky429World.gen zeroChunkPayload.model
      = ([Event.genCall "gemini-2.5-pro" 0, Event.genCall "gemini-2.0-flash" 0],
         Except.ok "fallback-text") := rfl
  have htest : sneaky429World.testOk = true := rfl
  have hinit : sneaky429World.initResp = Except.ok (some "uploadUrl") := rfl
  have hpipe : pipeline sneaky429World zeroChunkPayload
      = ([Event.testCall, Event.initCall, Event.finalizeUpload 0 [], Event.pollCall 0,
          Event.genCall "gemini-2.5-pro" 0, Event.genCall "gemini-2.0-flash" 0],
         Except.ok "fallback-text") := by
    simp [pipeline, htest, hinit, hstitch, hpoll, hgen]
  simp [handlerRun, hmeth, hbody, hkey, hjob, hpipe]

/-- Claim C5 (amended): if the first model of the chain fails and the failing
error's message contains neither the substring 503 nor 429 (as is the case
for typical malformed-request errors), no fallback model is attempted: the
generation trace contains calls only to the first model, the chain aborts
with that error, and the handler writes the ERROR terminal record with its
sanitized message. -/
theorem C5_fatal_aborts_chain_amended (w : World) (p : Payload) (u : String)
    (m : String) (rest : List String) (e : HandlerError)
    (evsG evsU evsP : List Event) (ub : Bytes × Nat)
    (hm : w.method = "POST") (hk : normalizeKey w.apiKeyEnv ≠ "")
    (hb : w.body = Except.ok p) (hj : p.jobId ≠ "")
    (htest : w.testOk = true)
    (hinit : w.initResp = Except.ok (some u))
    (hup : stitchUpload w.chunkStore w.blockResp w.finalizeResp p.totalChunks
      = (evsU, Except.ok ub))
    (hpoll : waitForFileActive w.poll = (evsP, Except.ok ()))
    (hchain : modelsToTry p.model = m :: rest)
    (hgen : generateContentREST (w.gen m) m = (evsG, Except.error e))
    (h503 : jsIncludes e.message "503" = false)
    (h429 : jsIncludes e.message "429" = false) :
    runGeneration w.gen p.model = (evsG, Except.error e) ∧
    (∀ mod fi, Event.genCall mod fi ∈ evsG → mod = m) ∧
    handlerRun w =
      ⟨[(p.jobId, TermRecord.error (sanitize w.jsonEnv e.message))],
       Event.testCall :: Event.initCall :: (evsU ++ evsP ++ evsG)⟩ := by
  have hfatal := fallbackLoop_cons_fatal w.gen m rest evsG e hgen h503 h429
  have hrg : runGeneration w.gen p.model = (evsG, Except.error e) := by
    simp [runGeneration, hchain, hfatal]
  refine ⟨hrg, ?_, ?_⟩
  · intro mod fi hmem
    apply genLoop_models (w.gen m) m (maxRetries + 1) 0 0 mod fi
    show Event.genCall mod fi ∈ (generateContentREST (w.gen m) m).1
    rw [hgen]
    exact hmem
  · have hpipe : pipeline w p
        = (Event.testCall :: Event.initCall :: (evsU ++ evsP ++ evsG), Except.error e) := by
      simp [pipeline, htest, hinit, hup, hpoll, hrg]
    simp [handlerRun, hm, hk, hb, hj, hpipe]

/-- Witness for C5 (amended) at `fatal400World`. -/
theorem C5_witness :
    runGeneration fatal400World.gen zeroChunkPayload.model
      = ([Event.genCall "gemini-2.5-pro" 0],
         Except.error (HandlerError.genFailed 400 "invalid argument")) ∧
    handlerRun fatal400World =
      ⟨[("j1", TermRecord.error (sanitize fatal400World.jsonEnv
          (HandlerError.genFailed 400 "invalid argument").message))],
       Event.testCall :: Event.initCall ::
        ([Event.finalizeUpload 0 []] ++ [Event.pollCall 0]
          ++ [Event.genCall "gemini-2.5-pro" 0])⟩ := by
  have h := C5_fatal_aborts_chain_amended fatal400World zeroChunkPayload "uploadUrl"
    "gemini-2.5-pro" ["gemini-2.0-flash", "gemini-2.5-flash"]
    (HandlerError.genFailed 400 "invalid argument")
    [Event.genCall "gemini-2.5-pro" 0] [Event.finalizeUpload 0 []] [Event.pollCall 0]
    ([], 0) rfl (by decide) rfl (by decide) rfl rfl rfl rfl rfl rfl (by decide) (by decide)
  exact ⟨h.1, h.2.2⟩

/-- Claim C6 counterexample: a fetch-level network error during polling is
not swallowed — the poller aborts after a single poll with the network error,
not the poll-timeout error, even though no terminal state was ever reported. -/
theorem C6_counterexample :
    waitForFileActive (fun _ => PollResp.netErr "read ECONNRESET")
      = ([Event.pollCall 0], Except.error (HandlerError.pollNetwork "read ECONNRESET")) ∧
    (Except.error (HandlerError.pollNetwork "read ECONNRESET") : Except HandlerError Unit)
      ≠ Except.error HandlerError.pollTimeout ∧
    countPolls [Event.pollCall 0] = 1 := by
  refine ⟨rfl, ?_, by decide⟩
  intro hcontra
  exact HandlerError.noConfusion (Except.error.inj hcontra)

/-- Claim C6 (amended): the poller always terminates after at most 60 poll
requests; HTTP-level transient failures (non-ok statuses other than 404) and
non-terminal states are swallowed at a fixed 2-second interval and only
consume attempt budget, and if all 60 polls are such swallowed responses the
poller fails with the poll-timeout error rather than looping forever (a
fetch-level network exception, however, aborts polling immediately). -/
theorem C6_poll_budget_amended (poll : Nat → PollResp) :
    countPolls (waitForFileActive poll).1 ≤ 60 ∧
    ((∀ k, k < 60 → swallowedPoll (poll k)) →
      waitForFileActive poll = (pollTimeoutTrace 0 60, Except.error HandlerError.pollTimeout) ∧
      countPolls (pollTimeoutTrace 0 60) = 60) := by
  constructor
  · exact pollLoop_polls_le poll 60 0
  · intro h
    exact ⟨pollLoop_timeout poll 60 0 (fun k _ hk2 => h k (by omega)),
      countPolls_timeoutTrace 60 0⟩

/-- Witness for C6 (amended): a backend answering HTTP 500 on every poll. -/
theorem C6_witness :
    countPolls (waitForFileActive (fun _ => PollResp.httpErr 500)).1 ≤ 60 ∧
    waitForFileActive (fun _ => PollResp.httpErr 500)
      = (pollTimeoutTrace 0 60, Except.error HandlerError.pollTimeout) := by
  have h := C6_poll_budget_amended (fun _ => PollResp.httpErr 500)
  exact ⟨h.1, (h.2 (fun k _ => by simp [swallowedPoll])).1⟩

/-- Claim C7: a success response whose body contains no usable text (absent
or empty `candidates[0].content.parts[0].text`) is treated as a success and
the invoker returns the empty-but-valid JSON object string rather than
raising an error. -/
theorem C7_empty_text_ok (respond : Nat → GenResp) (model : String) :
    (respond 0 = GenResp.ok none →
      generateContentREST respond model
        = ([Event.genCall model 0], Except.ok "\x7b\x7d")) ∧
    (respond 0 = GenResp.ok (some "") →
      generateContentREST respond model
        = ([Event.genCall model 0], Except.ok "\x7b\x7d")) := by
  constructor
  · intro h
    simp [generateContentREST, genLoop, h]
  · intro h
    simp [generateContentREST, genLoop, h]

/-- Witness for C7: a backend returning a success response with no text. -/
theorem C7_witness :
    generateContentREST (fun _ => GenResp.ok none) "gemini-2.5-flash"
      = ([Event.genCall "gemini-2.5-flash" 0], Except.ok "\x7b\x7d") :=
  (C7_empty_text_ok (fun _ => GenResp.ok none) "gemini-2.5-flash").1 rfl

/-- Claim C8: once the handler is past its guards, it writes exactly one
terminal record under the job's id — COMPLETED with the generated text when
the pipeline succeeds, ERROR with the sanitized message of the caught error
when any stage fails — and the sanitizer extracts the nested human-readable
message from a JSON-looking error envelope while using any other message
raw; no status other than COMPLETED or ERROR is ever written. -/
theorem C8_terminal_record (w : World) (p : Payload)
    (hm : w.method = "POST") (hk : normalizeKey w.apiKeyEnv ≠ "")
    (hb : w.body = Except.ok p) (hj : p.jobId ≠ "") :
    (∀ evs e, pipeline w p = (evs, Except.error e) →
      handlerRun w = ⟨[(p.jobId, TermRecord.error (sanitize w.jsonEnv e.message))], evs⟩) ∧
    (∀ evs t, pipeline w p = (evs, Except.ok t) →
      handlerRun w = ⟨[(p.jobId, TermRecord.completed t)], evs⟩) ∧
    (handlerRun w).writes.length = 1 ∧
    (∀ msg, strStarts ['\x7b'] msg.data = false → sanitize w.jsonEnv msg = msg) ∧
    (∀ msg m2, strStarts ['\x7b'] msg.data = true → w.jsonEnv msg = some m2 → m2 ≠ "" →
      sanitize w.jsonEnv msg = m2) := by
  refine ⟨?_, ?_, ?_, ?_, ?_⟩
  · intro evs e hp
    simp [handlerRun, hm, hk, hb, hj, hp]
  · intro evs t hp
    simp [handlerRun, hm, hk, hb, hj, hp]
  · rcases hp : pipeline w p with ⟨evs, r⟩
    rcases r with e | t <;> simp [handlerRun, hm, hk, hb, hj, hp]
  · intro msg hstart
    simp [sanitize, hstart]
  · intro msg m2 hstart henv hne
    simp [sanitize, hstart, henv, hne]

/-- Witness for C8 at a world whose preflight test fails. -/
theorem C8_witness :
    handlerRun preflightFailWorld
      = ⟨[("j1", TermRecord.error (sanitize preflightFailWorld.jsonEnv
          HandlerError.apiKeyRejected.message))], [Event.testCall]⟩ ∧
    (handlerRun preflightFailWorld).writes.length = 1 := by
  have h := C8_terminal_record preflightFailWorld basePayload rfl (by decide) rfl (by decide)
  exact ⟨h.1 [Event.testCall] HandlerError.apiKeyRejected rfl, h.2.2.1⟩

/-- Claim C9: a non-POST request, a payload without a `jobId`, or an API key
that is empty after trimming and unquoting makes the handler return without
issuing any backend call and without writing anything to the result store, so
the job never receives a terminal record and stays pending by omission. -/
theorem C9_silent_returns (w : World)
    (h : w.method ≠ "POST" ∨ normalizeKey w.apiKeyEnv = ""
      ∨ (∃ p, w.body = Except.ok p ∧ p.jobId = "")) :
    handlerRun w = ⟨[], []⟩ := by
  rcases h with h | h | ⟨p, hb, hj⟩
  · simp [handlerRun, h]
  · by_cases hm : w.method ≠ "POST"
    · simp [handlerRun, hm]
    · simp [handlerRun, hm, h]
  · by_cases hm : w.method ≠ "POST"
    · simp [handlerRun, hm]
    · by_cases hk : normalizeKey w.apiKeyEnv = ""
      · simp [handlerRun, hm, hk]
      · simp [handlerRun, hm, hk, hb, hj]

/-- Witness for C9: a GET request. -/
theorem C9_witness : handlerRun getWorld = ⟨[], []⟩ :=
  C9_silent_returns getWorld (Or.inl (by decide))

/-- Claim C10: when the request body fails to parse as JSON, the catch block
still writes an ERROR record, but under the empty-string key rather than the
submitting job's id, so a client polling by its own (nonempty) job id never
observes the failure. -/
theorem C10_parse_error_empty_key (w : World) (m : String)
    (hm : w.method = "POST") (hk : normalizeKey w.apiKeyEnv ≠ "")
    (hb : w.body = Except.error m) :
    (handlerRun w).writes = [("", TermRecord.error (sanitize w.jsonEnv m))] ∧
    (∀ j r, j ≠ "" → (j, r) ∉ (handlerRun w).writes) := by
  have hrun : handlerRun w = ⟨[("", TermRecord.error (sanitize w.jsonEnv m))], []⟩ := by
    simp [handlerRun, hm, hk, hb]
  rw [hrun]
  refine ⟨rfl, ?_⟩
  intro j r hj hmem
  simp at hmem
  exact hj hmem.1

/-- Witness for C10: a world whose body does not parse. -/
theorem C10_witness :
    (handlerRun parseFailWorld).writes
      = [("", TermRecord.error (sanitize parseFailWorld.jsonEnv
          "Unexpected token o in JSON"))] ∧
    ("j1", TermRecord.completed "out") ∉ (handlerRun parseFailWorld).writes := by
  have h := C10_parse_error_empty_key parseFailWorld "Unexpected token o in JSON"
    rfl (by decide) rfl
  exact ⟨h.1, h.2 "j1" (TermRecord.completed "out") (by decide)⟩
